import Mathlib

/-!
Verification development for the bff-hang poll application (Go, `main.go`).

The definitions below are a shallow embedding of the domain core of the
application: the data model (`Poll`, `Response`), the pure helpers
(`normalizeDays`, `filterDays`, `equalDays`, `findResponseByToken`,
`isCreator`, `summarizeAvailability`, `randomID`), the two storage backends
(`MemoryStorage`, `DynamoDBStorage`), and the three POST branches of
`handlePoll` (`updateDatesAction`, `submitResponseAction`,
`deleteResponseAction`).

Modelling conventions:
- Go byte strings are Lean `String`s; string comparison and trimming are
  re-implemented over the character list (`String.data`) so that all
  definitions evaluate inside the kernel.  Go compares UTF-8 bytes while we
  compare Unicode code points; the two orders agree on ASCII, and every
  string the application manipulates (dates `YYYY-MM-DD`, base32 ids) is
  ASCII.  Go `strings.TrimSpace` trims all Unicode white space; we trim the
  ASCII white-space characters, which agree on the inputs in scope.
- `time.Time` values are abstracted as `Nat` instants; the RFC3339
  format/parse round trip performed by the DynamoDB backend is modelled as
  the identity on these instants (it is injective on the UTC times in scope).
- Go maps are association lists (`mapGet`/`mapSet`); a Go map has at most one
  binding per key, which `mapSet` preserves.
- `sort.Slice`/`sort.Strings` are modelled with insertion sort.  The Go
  `sort.Slice` is unstable, so the order of responses with equal `CreatedAt`
  is unspecified in Go; the model fixes one admissible linearization.
- Fallible Go functions returning `error` become `Except StoreError`.
- A storage write that can fail for infrastructure reasons (a DynamoDB call)
  is modelled in `updateDatesAction` by an explicit fault predicate `addFail`
  saying which per-response writes fail; `fun _ => false` is the fault-free
  run (the in-memory backend never fails once the poll exists).
-/

/-- Poll entity (`type Poll struct`, main.go). -/
structure Poll where
  id : String
  title : String
  days : List String
  creatorToken : String
  createdAt : Nat
deriving Repr, DecidableEq

/-- Response entity (`type Response struct`, main.go). -/
structure Response where
  id : String
  name : String
  days : List String
  userToken : String
  createdAt : Nat
deriving Repr, DecidableEq

/-- Per-day availability summary (`type DaySummary struct`, main.go).
The display-only `Label` field (a reformatted copy of `Date` produced by
`formatDate`) is omitted; no claim concerns it. -/
structure DaySummary where
  date : String
  names : List String
  allAvailable : Bool
deriving Repr, DecidableEq

/-- Errors surfaced by the storage backends: `errNotFound`, `errConflict`
(main.go), and the DynamoDB conditional-write failure returned when
`attribute_not_exists(pk)` does not hold. -/
inductive StoreError where
  | notFound
  | conflict
  | condCheckFailed
deriving Repr, DecidableEq

deriving instance DecidableEq for Except

/-- ASCII white-space test standing in for Go `unicode.IsSpace` on the
character set in scope. -/
def isSpaceChar (c : Char) : Bool :=
  c == ' ' || c == '\t' || c == '\n' || c == '\r'

/-- Go `strings.TrimSpace`, over the character list so it evaluates in the
kernel. -/
def trimSpace (s : String) : String :=
  String.mk (((s.data.dropWhile isSpaceChar).reverse.dropWhile isSpaceChar).reverse)

/-- Lexicographic order on character lists by code point (Go byte order on
ASCII strings). -/
def charListLeB : List Char → List Char → Bool
  | [], _ => true
  | _ :: _, [] => false
  | a :: as, b :: bs =>
    if a.toNat < b.toNat then true
    else if b.toNat < a.toNat then false
    else charListLeB as bs

/-- Boolean string comparison used to model `sort.Strings`. -/
def strLeB (a b : String) : Bool := charListLeB a.data b.data

/-- The sort relation for strings. -/
def strLe (a b : String) : Prop := strLeB a b = true

instance : DecidableRel strLe := fun a b => by
  unfold strLe; infer_instance

/-- Go `sort.Strings` (ascending). -/
def sortStrings (l : List String) : List String :=
  List.insertionSort strLe l

/-- The comparison of `sort.Slice(responses, ...CreatedAt.Before...)`
(main.go `GetPoll`). -/
def respLe (a b : Response) : Prop := a.createdAt ≤ b.createdAt

instance : DecidableRel respLe := fun a b => by
  unfold respLe; infer_instance

/-- Ordering of responses by creation time, as done by both `GetPoll`
implementations. -/
def sortByCreatedAt (rs : List Response) : List Response :=
  List.insertionSort respLe rs

/-- The seen-set loop of `normalizeDays`: keeps the first occurrence of each
day. -/
def dedupFirstAux (seen : List String) : List String → List String
  | [] => []
  | d :: rest =>
    if d ∈ seen then dedupFirstAux seen rest
    else d :: dedupFirstAux (d :: seen) rest

/-- `func normalizeDays(input []string) []string` (main.go): trim each entry,
drop empties, drop duplicates, sort ascending. -/
def normalizeDays (input : List String) : List String :=
  sortStrings (dedupFirstAux [] ((input.map trimSpace).filter (fun d => d ≠ "")))

/-- `func filterDays(selected, allowed []string) []string` (main.go): keep the
selected days that are in the allowed set, preserving order. -/
def filterDays (selected allowed : List String) : List String :=
  selected.filter (fun day => allowed.contains day)

/-- `func equalDays(a, b []string) bool` (main.go). -/
def equalDays : List String → List String → Bool
  | [], [] => true
  | a :: as, b :: bs => a == b && equalDays as bs
  | _, _ => false

/-- `func findResponseByToken(responses []Response, token string) *Response`
(main.go): first response whose trimmed token equals the trimmed caller
token; `none` when the trimmed caller token is empty. -/
def findResponseByToken (responses : List Response) (token : String) : Option Response :=
  let target := trimSpace token
  if target = "" then none
  else responses.find? (fun r => trimSpace r.userToken == target)

/-- `func isCreator(poll Poll, token string) bool` (main.go). -/
def isCreator (poll : Poll) (token : String) : Bool :=
  poll.creatorToken != "" && poll.creatorToken == token

/-- The `nameByDay` accumulation of `summarizeAvailability` (main.go): one
name entry per occurrence of `day` in each response day list, in response
order. -/
def namesForDay (responses : List Response) (day : String) : List String :=
  responses.flatMap (fun r => (r.days.filter (fun d => d == day)).map (fun _ => r.name))

/-- `func summarizeAvailability(days []string, responses []Response)
[]DaySummary` (main.go). -/
def summarizeAvailability (days : List String) (responses : List Response) : List DaySummary :=
  days.map (fun day =>
    let names := sortStrings (namesForDay responses day)
    { date := day
      names := names
      allAvailable := decide (0 < responses.length) && (names.length == responses.length) })

/-- `func pollPartitionKey(id string) string` (main.go). -/
def pollPartitionKey (id : String) : String := "POLL#" ++ id

/-! ### The in-memory backend (`MemoryStorage`, main.go) -/

/-- Go map read `m[k]`. -/
def mapGet {α : Type} (m : List (String × α)) (k : String) : Option α :=
  List.lookup k m

/-- Go map write `m[k] = v`: replace the binding if present, else add it. -/
def mapSet {α : Type} (m : List (String × α)) (k : String) (v : α) : List (String × α) :=
  match m with
  | [] => [(k, v)]
  | (k', v') :: rest => if k' == k then (k, v) :: rest else (k', v') :: mapSet rest k v

/-- The replace-or-append loop of `MemoryStorage.AddResponse` (main.go):
replace the first response with the same identifier, else append. -/
def upsertByID : List Response → Response → List Response
  | [], resp => [resp]
  | r :: rest, resp => if r.id == resp.id then resp :: rest else r :: upsertByID rest resp

/-- The removal loop of `MemoryStorage.DeleteResponse` (main.go): remove the
first response with the given identifier, no-op when absent. -/
def removeFirstByID : List Response → String → List Response
  | [], _ => []
  | r :: rest, responseID => if r.id == responseID then rest else r :: removeFirstByID rest responseID

/-- `type MemoryStorage struct` (main.go): a polls map and a responses map. -/
structure MemoryStorage where
  polls : List (String × Poll)
  responses : List (String × List Response)
deriving Repr, DecidableEq

/-- `MemoryStorage.CreatePoll` (main.go). -/
def MemoryStorage.createPoll (s : MemoryStorage) (poll : Poll) : Except StoreError MemoryStorage :=
  if (mapGet s.polls poll.id).isSome then .error .conflict
  else .ok { s with polls := mapSet s.polls poll.id poll }

/-- `MemoryStorage.GetPoll` (main.go): the poll plus its responses sorted by
creation time. -/
def MemoryStorage.getPoll (s : MemoryStorage) (pollID : String) :
    Except StoreError (Poll × List Response) :=
  match mapGet s.polls pollID with
  | none => .error .notFound
  | some poll => .ok (poll, sortByCreatedAt ((mapGet s.responses pollID).getD []))

/-- `MemoryStorage.AddResponse` (main.go): not-found when the poll is absent;
otherwise replace the response with the same identifier or append. -/
def MemoryStorage.addResponse (s : MemoryStorage) (pollID : String) (response : Response) :
    Except StoreError MemoryStorage :=
  if (mapGet s.polls pollID).isNone then .error .notFound
  else .ok { s with
    responses := mapSet s.responses pollID (upsertByID ((mapGet s.responses pollID).getD []) response) }

/-- `MemoryStorage.UpdatePollDays` (main.go). -/
def MemoryStorage.updatePollDays (s : MemoryStorage) (pollID : String) (days : List String) :
    Except StoreError MemoryStorage :=
  match mapGet s.polls pollID with
  | none => .error .notFound
  | some poll => .ok { s with polls := mapSet s.polls pollID { poll with days := days } }

/-- `MemoryStorage.DeleteResponse` (main.go).  When the identifier is absent
Go leaves the map binding untouched; writing back the unchanged list is
observably identical. -/
def MemoryStorage.deleteResponse (s : MemoryStorage) (pollID : String) (responseID : String) :
    Except StoreError MemoryStorage :=
  if (mapGet s.polls pollID).isNone then .error .notFound
  else .ok { s with
    responses := mapSet s.responses pollID (removeFirstByID ((mapGet s.responses pollID).getD []) responseID) }

/-! ### The DynamoDB backend (`DynamoDBStorage`, main.go)

One table item per poll row (`sk = "POLL"`, `type = "poll"`) and per response
row (`sk = "RESP#" ++ id`, `type = "response"`), all sharing the partition
key `POLL#<pollID>`.  Attributes a row does not carry are the zero values the
Go `attributevalue` unmarshaller would produce for missing attributes. -/

/-- One DynamoDB item, the union of the attributes of `PollItem` and
`ResponseItem` (main.go); missing attributes are zero values. -/
structure DDBItem where
  pk : String
  sk : String
  type : String
  id : String
  title : String
  days : List String
  creatorToken : String
  name : String
  userToken : String
  createdAt : Nat
deriving Repr, DecidableEq

/-- A DynamoDB item with every attribute at its zero value. -/
def emptyItem : DDBItem :=
  { pk := "", sk := "", type := "", id := "", title := "", days := []
    creatorToken := "", name := "", userToken := "", createdAt := 0 }

/-- DynamoDB `PutItem` without a condition: replace the item with the same
`(pk, sk)` key, else insert. -/
def putItem (t : List DDBItem) (item : DDBItem) : List DDBItem :=
  if t.any (fun i => i.pk == item.pk && i.sk == item.sk)
  then t.map (fun i => if i.pk == item.pk && i.sk == item.sk then item else i)
  else t ++ [item]

/-- `type DynamoDBStorage struct` (main.go), modelled by the contents of its
table. -/
structure DynamoDBStorage where
  items : List DDBItem
deriving Repr, DecidableEq

/-- `DynamoDBStorage.CreatePoll` (main.go): conditional `PutItem` of the poll
row; `attribute_not_exists(pk)` fails exactly when an item with the same
`(pk, "POLL")` key already exists. -/
def DynamoDBStorage.createPoll (s : DynamoDBStorage) (poll : Poll) :
    Except StoreError DynamoDBStorage :=
  let pk := pollPartitionKey poll.id
  if s.items.any (fun i => i.pk == pk && i.sk == "POLL") then .error .condCheckFailed
  else .ok ⟨putItem s.items
    { emptyItem with
      pk := pk
      sk := "POLL"
      type := "poll"
      id := poll.id
      title := poll.title
      days := poll.days
      creatorToken := poll.creatorToken
      createdAt := poll.createdAt }⟩

/-- `DynamoDBStorage.AddResponse` (main.go): an unconditional `PutItem` of the
response row; it succeeds whether or not a poll row exists. -/
def DynamoDBStorage.addResponse (s : DynamoDBStorage) (pollID : String) (r : Response) :
    Except StoreError DynamoDBStorage :=
  .ok ⟨putItem s.items
    { emptyItem with
      pk := pollPartitionKey pollID
      sk := "RESP#" ++ r.id
      type := "response"
      id := r.id
      name := r.name
      days := r.days
      userToken := r.userToken
      createdAt := r.createdAt }⟩

/-- `DynamoDBStorage.UpdatePollDays` (main.go): DynamoDB `UpdateItem` with
`SET days = :days` upserts — when the poll row is absent it creates an item
holding only the key and the `days` attribute, and reports success. -/
def DynamoDBStorage.updatePollDays (s : DynamoDBStorage) (pollID : String) (days : List String) :
    Except StoreError DynamoDBStorage :=
  let pk := pollPartitionKey pollID
  if s.items.any (fun i => i.pk == pk && i.sk == "POLL")
  then .ok ⟨s.items.map (fun i => if i.pk == pk && i.sk == "POLL" then { i with days := days } else i)⟩
  else .ok ⟨s.items ++ [{ emptyItem with pk := pk, sk := "POLL", days := days }]⟩

/-- `DynamoDBStorage.DeleteResponse` (main.go): unconditional `DeleteItem`,
idempotent. -/
def DynamoDBStorage.deleteResponse (s : DynamoDBStorage) (pollID : String) (responseID : String) :
    Except StoreError DynamoDBStorage :=
  let pk := pollPartitionKey pollID
  let sk := "RESP#" ++ responseID
  .ok ⟨s.items.filter (fun i => !(i.pk == pk && i.sk == sk))⟩

/-- `DynamoDBStorage.GetPoll` (main.go): query the partition, fail when it is
empty or carries no poll-typed row, sort the responses by creation time. -/
def DynamoDBStorage.getPoll (s : DynamoDBStorage) (pollID : String) :
    Except StoreError (Poll × List Response) :=
  let pk := pollPartitionKey pollID
  let rows := s.items.filter (fun i => i.pk == pk)
  if rows.isEmpty then .error .notFound
  else
    let poll := rows.foldl
      (fun acc i => if i.type == "poll" then
          { id := i.id, title := i.title, days := i.days
            creatorToken := i.creatorToken, createdAt := i.createdAt }
        else acc)
      ({ id := "", title := "", days := [], creatorToken := "", createdAt := 0 } : Poll)
    let responses := (rows.filter (fun i => i.type == "response")).map
      (fun i => ({ id := i.id, name := i.name, days := i.days
                   userToken := i.userToken, createdAt := i.createdAt } : Response))
    if poll.id == "" then .error .notFound
    else .ok (poll, sortByCreatedAt responses)

/-! ### Identifier generation (`randomID`, main.go) -/

/-- RFC 4648 base32 alphabet used by Go `base32.StdEncoding`. -/
def base32Alphabet : List Char := "ABCDEFGHIJKLMNOPQRSTUVWXYZ234567".data

/-- The 8 bits of a byte, most significant first. -/
def byteBits (b : Nat) : List Bool :=
  (List.range 8).map (fun i => b / 2 ^ (7 - i) % 2 == 1)

/-- Group a bit stream into quintets, the trailing partial group kept. -/
def chunk5 : List Bool → List (List Bool)
  | [] => []
  | [a] => [[a]]
  | [a, b] => [[a, b]]
  | [a, b, c] => [[a, b, c]]
  | [a, b, c, d] => [[a, b, c, d]]
  | a :: b :: c :: d :: e :: rest => [a, b, c, d, e] :: chunk5 rest

/-- Value of a bit group, high bit first. -/
def bitsToNat (bs : List Bool) : Nat :=
  bs.foldl (fun acc b => acc * 2 + (if b then 1 else 0)) 0

/-- Go `base32.StdEncoding.WithPadding(base32.NoPadding).EncodeToString`:
5-bit groups of the byte stream, the trailing group zero-padded on the
right, mapped through the base32 alphabet, no `=` padding. -/
def base32NoPadEncode (bytes : List Nat) : String :=
  String.mk ((chunk5 (bytes.flatMap byteBits)).map
    (fun g => (base32Alphabet.getD (bitsToNat (g ++ List.replicate (5 - g.length) false)) 'A')))

/-- Go `strings.TrimRight(s, "=")`. -/
def trimRightEq (s : String) : String :=
  String.mk ((s.data.reverse.dropWhile (fun c => c == '=')).reverse)

/-- `func randomID() string` (main.go).  `rngBytes` is the outcome of
`rand.Read` on a 16-byte buffer: `some` of the filled bytes on success,
`none` when the cryptographic RNG returns an error.  On RNG failure the Go
code does not return an error: it falls back to a string derived from the
current clock (`time.Now().UnixNano()`), passed here as `nowUnixNano`. -/
def randomID (rngBytes : Option (List Nat)) (nowUnixNano : Nat) : String :=
  match rngBytes with
  | none => "fallback-" ++ toString nowUnixNano
  | some buf => trimRightEq (base32NoPadEncode buf)

/-! ### The POST branches of `handlePoll` (main.go)

`handlePoll` dispatches a POST on the `action` form value: `"update-dates"`
and `"delete-response"` are creator-only; an absent action is a response
submission.  Each branch is embedded as a function from the memory-backend
state to the HTTP-level outcome paired with the new state. -/

/-- The HTTP-level outcomes of a `handlePoll` POST. -/
inductive PollPostResult where
  /-- `http.Redirect` (303 See Other). -/
  | redirect (loc : String)
  /-- `http.Error(w, "forbidden", http.StatusForbidden)`. -/
  | forbidden
  /-- `http.Error(w, ..., http.StatusBadRequest)`. -/
  | badRequest
  /-- Re-render of the poll page with the validation message. -/
  | pageWithError
  /-- Successful render after a stored submission. -/
  | pageOk
  /-- `http.Error(w, ..., http.StatusInternalServerError)`. -/
  | serverError
deriving Repr, DecidableEq

/-- The response-pruning loop of the `update-dates` branch (main.go): for
each response, intersect its days with the updated days and persist it when
that changed; stop with a 500 when a write fails (`addFail` injects the
possible infrastructure failure of the write for a given response id). -/
def pruneLoop (addFail : String → Bool) (st : MemoryStorage)
    (pollID userToken : String) (updatedDays : List String) :
    List Response → PollPostResult × MemoryStorage
  | [] => (.redirect ("/poll/" ++ pollID ++ "/u/" ++ userToken), st)
  | response :: rest =>
    let filtered := filterDays response.days updatedDays
    if equalDays response.days filtered then
      pruneLoop addFail st pollID userToken updatedDays rest
    else if addFail response.id then (.serverError, st)
    else
      match st.addResponse pollID { response with days := filtered } with
      | .error _ => (.serverError, st)
      | .ok st1 => pruneLoop addFail st1 pollID userToken updatedDays rest

/-- The `action == "update-dates"` branch of `handlePoll` (main.go): load the
poll, require the creator, normalize the form days, reject when empty,
replace the poll days, then prune every response. -/
def updateDatesAction (addFail : String → Bool) (st : MemoryStorage)
    (pollID userToken : String) (formDays : List String) :
    PollPostResult × MemoryStorage :=
  match st.getPoll pollID with
  | .error .notFound => (.redirect "/?invalid=1", st)
  | .error _ => (.serverError, st)
  | .ok (poll, responses) =>
    if !(isCreator poll userToken) then (.forbidden, st)
    else
      let updatedDays := normalizeDays formDays
      if updatedDays.isEmpty then (.badRequest, st)
      else
        match st.updatePollDays pollID updatedDays with
        | .error _ => (.serverError, st)
        | .ok st1 => pruneLoop addFail st1 pollID userToken updatedDays responses

/-- The `action == "delete-response"` branch of `handlePoll` (main.go). -/
def deleteResponseAction (st : MemoryStorage) (pollID userToken responseID : String) :
    PollPostResult × MemoryStorage :=
  match st.getPoll pollID with
  | .error .notFound => (.redirect "/?invalid=1", st)
  | .error _ => (.serverError, st)
  | .ok (poll, _) =>
    if !(isCreator poll userToken) then (.forbidden, st)
    else
      let rid := trimSpace responseID
      if rid = "" then (.badRequest, st)
      else
        match st.deleteResponse pollID rid with
        | .error _ => (.serverError, st)
        | .ok st1 => (.redirect ("/poll/" ++ pollID ++ "/u/" ++ userToken), st1)

/-- The submission branch of `handlePoll` (main.go, no `action` form value):
trim the name, intersect the normalized form days with the poll days, reject
with the validation page when the name or the intersection is empty,
otherwise store the response — reusing the identifier and creation time of
an existing response with the same token, else a fresh identifier `freshID`
with the current time `now`. -/
def submitResponseAction (st : MemoryStorage) (pollID userToken : String)
    (formName : String) (formDays : List String) (freshID : String) (now : Nat) :
    PollPostResult × MemoryStorage :=
  match st.getPoll pollID with
  | .error .notFound => (.redirect "/?invalid=1", st)
  | .error _ => (.serverError, st)
  | .ok (poll, responses) =>
    let name := trimSpace formName
    let selectedDays := filterDays (normalizeDays formDays) poll.days
    if name = "" ∨ selectedDays.isEmpty then (.pageWithError, st)
    else
      let response : Response :=
        match findResponseByToken responses userToken with
        | some existing =>
          { id := existing.id, name := name, days := selectedDays
            userToken := userToken, createdAt := existing.createdAt }
        | none =>
          { id := freshID, name := name, days := selectedDays
            userToken := userToken, createdAt := now }
      match st.addResponse pollID response with
      | .error _ => (.serverError, st)
      | .ok st1 => (.pageOk, st1)

/-- A memory store holding exactly one poll and its response list; the state
shape every per-poll scenario uses. -/
def mkStore (pollID : String) (poll : Poll) (rs : List Response) : MemoryStorage :=
  { polls := [(pollID, poll)], responses := [(pollID, rs)] }

/-- Modelled from the spec wording of claim C8, for comparison with the code:
a string of the date format `YYYY-MM-DD` — four digits, a dash, two digits,
a dash, two digits.  (The code has no such check; this predicate only states
what the spec calls a valid date.) -/
def specValidDateFormat (s : String) : Bool :=
  match s.data with
  | [y1, y2, y3, y4, d1, m1, m2, d2, a1, a2] =>
    y1.isDigit && y2.isDigit && y3.isDigit && y4.isDigit &&
    d1 == '-' && m1.isDigit && m2.isDigit &&
    d2 == '-' && a1.isDigit && a2.isDigit
  | _ => false

/-! ### Shared lemmas about the helpers -/

theorem equalDays_iff_eq : ∀ a b : List String, equalDays a b = true ↔ a = b := by
  intro a
  induction a with
  | nil => intro b; cases b <;> simp [equalDays]
  | cons x xs ih =>
    intro b
    cases b with
    | nil => simp [equalDays]
    | cons y ys => simp [equalDays, ih]

theorem mem_filterDays {d : String} {sel allowed : List String} :
    d ∈ filterDays sel allowed ↔ d ∈ sel ∧ d ∈ allowed := by
  simp [filterDays, List.mem_filter]

theorem filterDays_subset (sel allowed : List String) : filterDays sel allowed ⊆ allowed :=
  fun _ hd => (mem_filterDays.mp hd).2

theorem subset_of_equalDays_filter {rd D : List String}
    (h : equalDays rd (filterDays rd D) = true) : rd ⊆ D := by
  have heq : rd = filterDays rd D := (equalDays_iff_eq _ _).mp h
  intro d hd
  exact (mem_filterDays.mp (heq ▸ hd)).2

theorem upsertByID_mem {l : List Response} {r x : Response}
    (h : x ∈ upsertByID l r) : x = r ∨ x ∈ l := by
  induction l with
  | nil => simpa [upsertByID] using h
  | cons a as ih =>
    rw [upsertByID] at h
    by_cases hid : (a.id == r.id) = true
    · rw [if_pos hid] at h
      rcases List.mem_cons.mp h with h | h
      · exact .inl h
      · exact .inr (List.mem_cons_of_mem _ h)
    · rw [if_neg hid] at h
      rcases List.mem_cons.mp h with h | h
      · exact .inr (h ▸ List.mem_cons_self _ _)
      · rcases ih h with h | h
        · exact .inl h
        · exact .inr (List.mem_cons_of_mem _ h)

theorem self_mem_upsertByID (l : List Response) (r : Response) : r ∈ upsertByID l r := by
  induction l with
  | nil => simp [upsertByID]
  | cons a as ih =>
    rw [upsertByID]
    by_cases hid : (a.id == r.id) = true
    · rw [if_pos hid]; exact List.mem_cons_self _ _
    · rw [if_neg hid]; exact List.mem_cons_of_mem _ ih

theorem mem_upsertByID_of_mem {l : List Response} {r y : Response}
    (hy : y ∈ l) (hne : y.id ≠ r.id) : y ∈ upsertByID l r := by
  induction l with
  | nil => cases hy
  | cons a as ih =>
    rw [upsertByID]
    by_cases hid : (a.id == r.id) = true
    · rw [if_pos hid]
      rcases List.mem_cons.mp hy with h | h
      · exact absurd (h ▸ beq_iff_eq.mp hid) hne
      · exact List.mem_cons_of_mem _ h
    · rw [if_neg hid]
      rcases List.mem_cons.mp hy with h | h
      · exact h ▸ List.mem_cons_self _ _
      · exact List.mem_cons_of_mem _ (ih h)

theorem upsertByID_mem_of_nodup {l : List Response} {r x : Response}
    (hnd : (l.map Response.id).Nodup) (h : x ∈ upsertByID l r) :
    x = r ∨ (x ∈ l ∧ x.id ≠ r.id) := by
  induction l with
  | nil => simp_all [upsertByID]
  | cons a as ih =>
    simp only [List.map_cons, List.nodup_cons] at hnd
    rw [upsertByID] at h
    by_cases hid : (a.id == r.id) = true
    · rw [if_pos hid] at h
      rcases List.mem_cons.mp h with h | h
      · exact .inl h
      · refine .inr ⟨List.mem_cons_of_mem _ h, fun hx => ?_⟩
        have hmem : x.id ∈ as.map Response.id := List.mem_map_of_mem Response.id h
        rw [hx, ← beq_iff_eq.mp hid] at hmem
        exact hnd.1 hmem
    · rw [if_neg hid] at h
      rcases List.mem_cons.mp h with h | h
      · subst h
        exact .inr ⟨List.mem_cons_self _ _, fun hx => hid (beq_iff_eq.mpr hx)⟩
      · rcases ih hnd.2 h with h1 | h1
        · exact .inl h1
        · exact .inr ⟨List.mem_cons_of_mem _ h1.1, h1.2⟩

theorem upsertByID_ids_subset (l : List Response) (r : Response) :
    ((upsertByID l r).map Response.id) ⊆ r.id :: l.map Response.id := by
  intro x hx
  simp only [List.mem_map] at hx
  rcases hx with ⟨y, hy, hxy⟩
  rcases upsertByID_mem hy with h | h
  · subst h
    rw [← hxy]
    exact List.mem_cons_self _ _
  · rw [← hxy]
    exact List.mem_cons_of_mem _ (List.mem_map_of_mem Response.id h)

theorem upsertByID_ids_nodup {l : List Response} (r : Response)
    (hnd : (l.map Response.id).Nodup) : ((upsertByID l r).map Response.id).Nodup := by
  induction l with
  | nil => simp [upsertByID]
  | cons a as ih =>
    simp only [List.map_cons, List.nodup_cons] at hnd
    rw [upsertByID]
    by_cases hid : (a.id == r.id) = true
    · rw [if_pos hid]
      simp only [List.map_cons, List.nodup_cons]
      exact ⟨beq_iff_eq.mp hid ▸ hnd.1, hnd.2⟩
    · rw [if_neg hid]
      simp only [List.map_cons, List.nodup_cons]
      refine ⟨fun hx => ?_, ih hnd.2⟩
      rcases List.mem_cons.mp (upsertByID_ids_subset as r hx) with h | h
      · exact hid (beq_iff_eq.mpr h)
      · exact hnd.1 h

theorem upsertByID_fresh {l : List Response} {r : Response}
    (h : ∀ x ∈ l, x.id ≠ r.id) : upsertByID l r = l ++ [r] := by
  induction l with
  | nil => rfl
  | cons a as ih =>
    have ha : ¬ (a.id == r.id) = true := fun hb =>
      h a (List.mem_cons_self _ _) (beq_iff_eq.mp hb)
    rw [upsertByID, if_neg ha, ih (fun x hx => h x (List.mem_cons_of_mem _ hx))]
    rfl

theorem upsertByID_replace_last (l : List Response) (old r : Response)
    (h : ∀ x ∈ l, x.id ≠ r.id) (hold : old.id = r.id) :
    upsertByID (l ++ [old]) r = l ++ [r] := by
  induction l with
  | nil =>
    simp only [List.nil_append]
    rw [upsertByID, if_pos (beq_iff_eq.mpr hold)]
  | cons a as ih =>
    have ha : ¬ (a.id == r.id) = true := fun hb =>
      h a (List.mem_cons_self _ _) (beq_iff_eq.mp hb)
    simp only [List.cons_append]
    rw [upsertByID, if_neg ha, ih (fun x hx => h x (List.mem_cons_of_mem _ hx))]

theorem find?_eq_some_of_unique {l : List Response} {p : Response → Bool} {a : Response}
    (hpa : p a = true) (huniq : ∀ x ∈ l, p x = true → x = a) (hmem : a ∈ l) :
    l.find? p = some a := by
  induction l with
  | nil => cases hmem
  | cons b bs ih =>
    by_cases hb : p b = true
    · have hba : b = a := huniq b (List.mem_cons_self _ _) hb
      subst hba
      simp [List.find?, hb]
    · simp only [List.find?, Bool.not_eq_true] at hb ⊢
      rw [hb]
      rcases List.mem_cons.mp hmem with h | h
      · exact absurd (h ▸ hpa) (by simp [hb])
      · exact ih (fun x hx hpx => huniq x (List.mem_cons_of_mem _ hx) hpx) h

theorem sortByCreatedAt_perm (rs : List Response) : (sortByCreatedAt rs).Perm rs :=
  List.perm_insertionSort _ rs

theorem mem_sortByCreatedAt {rs : List Response} {r : Response} :
    r ∈ sortByCreatedAt rs ↔ r ∈ rs :=
  List.mem_insertionSort _

theorem mem_sortStrings {l : List String} {s : String} :
    s ∈ sortStrings l ↔ s ∈ l :=
  List.mem_insertionSort _

/-! ### Totality and transitivity of the string order -/

theorem charListLeB_total : ∀ a b : List Char, charListLeB a b = true ∨ charListLeB b a = true := by
  intro a
  induction a with
  | nil => intro b; left; rfl
  | cons x xs ih =>
    intro b
    cases b with
    | nil => right; rfl
    | cons y ys =>
      simp only [charListLeB]
      rcases Nat.lt_trichotomy x.toNat y.toNat with h | h | h
      · left; simp [h]
      · have h1 : ¬ x.toNat < y.toNat := by omega
        have h2 : ¬ y.toNat < x.toNat := by omega
        simpa [h1, h2] using ih ys
      · right; simp [h]

theorem charListLeB_trans :
    ∀ a b c : List Char, charListLeB a b = true → charListLeB b c = true →
      charListLeB a c = true := by
  intro a
  induction a with
  | nil => intro b c _ _; rfl
  | cons x xs ih =>
    intro b c hab hbc
    cases b with
    | nil => simp [charListLeB] at hab
    | cons y ys =>
      cases c with
      | nil => simp [charListLeB] at hbc
      | cons z zs =>
        rw [charListLeB] at hab hbc ⊢
        rcases Nat.lt_trichotomy x.toNat y.toNat with h1 | h1 | h1
        · rcases Nat.lt_trichotomy y.toNat z.toNat with h2 | h2 | h2
          · rw [if_pos (show x.toNat < z.toNat by omega)]
          · rw [if_pos (show x.toNat < z.toNat by omega)]
          · rw [if_neg (show ¬ y.toNat < z.toNat by omega), if_pos h2] at hbc
            simp at hbc
        · rcases Nat.lt_trichotomy y.toNat z.toNat with h2 | h2 | h2
          · rw [if_pos (show x.toNat < z.toNat by omega)]
          · rw [if_neg (show ¬ x.toNat < y.toNat by omega),
              if_neg (show ¬ y.toNat < x.toNat by omega)] at hab
            rw [if_neg (show ¬ y.toNat < z.toNat by omega),
              if_neg (show ¬ z.toNat < y.toNat by omega)] at hbc
            rw [if_neg (show ¬ x.toNat < z.toNat by omega),
              if_neg (show ¬ z.toNat < x.toNat by omega)]
            exact ih ys zs hab hbc
          · rw [if_neg (show ¬ y.toNat < z.toNat by omega), if_pos h2] at hbc
            simp at hbc
        · rw [if_neg (show ¬ x.toNat < y.toNat by omega), if_pos h1] at hab
          simp at hab

instance : IsTotal String strLe :=
  ⟨fun a b => charListLeB_total a.data b.data⟩

instance : IsTrans String strLe :=
  ⟨fun a b c hab hbc => charListLeB_trans a.data b.data c.data hab hbc⟩

theorem sortStrings_sorted (l : List String) : List.Sorted strLe (sortStrings l) :=
  List.sorted_insertionSort strLe l

/-! ### Characterization of normalizeDays -/

theorem mem_dedupFirstAux :
    ∀ (l seen : List String) (x : String),
      x ∈ dedupFirstAux seen l ↔ x ∈ l ∧ x ∉ seen := by
  intro l
  induction l with
  | nil => intro seen x; simp [dedupFirstAux]
  | cons d rest ih =>
    intro seen x
    by_cases hd : d ∈ seen
    · rw [dedupFirstAux, if_pos hd, ih]
      simp only [List.mem_cons]
      constructor
      · rintro ⟨hx, hs⟩
        exact ⟨.inr hx, hs⟩
      · rintro ⟨hx | hx, hs⟩
        · exact absurd (hx ▸ hd) hs
        · exact ⟨hx, hs⟩
    · rw [dedupFirstAux, if_neg hd]
      simp only [List.mem_cons, ih]
      constructor
      · rintro (rfl | ⟨hx, hs⟩)
        · exact ⟨.inl rfl, hd⟩
        · exact ⟨.inr hx, fun hxx => hs (.inr hxx)⟩
      · rintro ⟨rfl | hx, hs⟩
        · exact .inl rfl
        · by_cases hxd : x = d
          · exact .inl hxd
          · exact .inr ⟨hx, fun hmem => hmem.elim hxd hs⟩

theorem nodup_dedupFirstAux : ∀ (l seen : List String), (dedupFirstAux seen l).Nodup := by
  intro l
  induction l with
  | nil => intro seen; simp [dedupFirstAux]
  | cons d rest ih =>
    intro seen
    by_cases hd : d ∈ seen
    · rw [dedupFirstAux, if_pos hd]
      exact ih seen
    · rw [dedupFirstAux, if_neg hd]
      rw [List.nodup_cons]
      refine ⟨fun hmem => ?_, ih (d :: seen)⟩
      exact ((mem_dedupFirstAux rest (d :: seen) d).mp hmem).2 (List.mem_cons_self _ _)

theorem mem_normalizeDays {input : List String} {d : String} :
    d ∈ normalizeDays input ↔ d ≠ "" ∧ ∃ x ∈ input, trimSpace x = d := by
  unfold normalizeDays
  rw [mem_sortStrings, mem_dedupFirstAux]
  simp only [List.not_mem_nil, not_false_iff, and_true, List.mem_filter, List.mem_map,
    decide_eq_true_eq]
  constructor
  · rintro ⟨⟨x, hx, rfl⟩, hne⟩
    exact ⟨hne, x, hx, rfl⟩
  · rintro ⟨hne, x, hx, rfl⟩
    exact ⟨⟨x, hx, rfl⟩, hne⟩

theorem nodup_normalizeDays (input : List String) : (normalizeDays input).Nodup :=
  ((List.perm_insertionSort strLe _).nodup_iff).mpr (nodup_dedupFirstAux _ [])

/-! ### Step lemmas for the single-poll store -/

theorem mapGet_mkStore_polls (pollID : String) (poll : Poll) (rs : List Response) :
    mapGet (mkStore pollID poll rs).polls pollID = some poll := by
  simp [mkStore, mapGet, List.lookup]

theorem mapGet_mkStore_responses (pollID : String) (poll : Poll) (rs : List Response) :
    mapGet (mkStore pollID poll rs).responses pollID = some rs := by
  simp [mkStore, mapGet, List.lookup]

theorem getPoll_mkStore (pollID : String) (poll : Poll) (rs : List Response) :
    (mkStore pollID poll rs).getPoll pollID = .ok (poll, sortByCreatedAt rs) := by
  simp [mkStore, MemoryStorage.getPoll, mapGet, List.lookup]

theorem addResponse_mkStore (pollID : String) (poll : Poll) (rs : List Response) (r : Response) :
    (mkStore pollID poll rs).addResponse pollID r
      = .ok (mkStore pollID poll (upsertByID rs r)) := by
  simp [mkStore, MemoryStorage.addResponse, mapGet, mapSet, List.lookup]

theorem updatePollDays_mkStore (pollID : String) (poll : Poll) (rs : List Response)
    (D : List String) :
    (mkStore pollID poll rs).updatePollDays pollID D
      = .ok (mkStore pollID { poll with days := D } rs) := by
  simp [mkStore, MemoryStorage.updatePollDays, mapGet, mapSet, List.lookup]

theorem findResponseByToken_none {rs : List Response} {token : String}
    (h : ∀ r ∈ rs, trimSpace r.userToken ≠ trimSpace token) :
    findResponseByToken rs token = none := by
  unfold findResponseByToken
  by_cases ht : trimSpace token = ""
  · simp [ht]
  · rw [if_neg ht]
    apply List.find?_eq_none.mpr
    intro x hx
    simp only [beq_iff_eq]
    exact h x hx

theorem findResponseByToken_unique {rs : List Response} {token : String} {a : Response}
    (ht : trimSpace token ≠ "")
    (ha : trimSpace a.userToken = trimSpace token)
    (huniq : ∀ x ∈ rs, trimSpace x.userToken = trimSpace token → x = a)
    (hmem : a ∈ rs) :
    findResponseByToken rs token = some a := by
  unfold findResponseByToken
  rw [if_neg ht]
  exact find?_eq_some_of_unique (beq_iff_eq.mpr ha)
    (fun x hx hpx => huniq x hx (beq_iff_eq.mp hpx)) hmem

/-! ### Lemmas about the pruning loop of update-dates -/

theorem pruneLoop_cons (addFail : String → Bool) (st : MemoryStorage)
    (pollID userToken : String) (D : List String) (r : Response) (rest : List Response) :
    pruneLoop addFail st pollID userToken D (r :: rest) =
      if equalDays r.days (filterDays r.days D) then
        pruneLoop addFail st pollID userToken D rest
      else if addFail r.id then (.serverError, st)
      else
        match st.addResponse pollID { r with days := filterDays r.days D } with
        | .error _ => (.serverError, st)
        | .ok st1 => pruneLoop addFail st1 pollID userToken D rest := rfl

theorem pruneLoop_ne_badRequest (addFail : String → Bool)
    (pollID userToken : String) (D : List String) :
    ∀ (rem : List Response) (st : MemoryStorage),
      (pruneLoop addFail st pollID userToken D rem).1 ≠ .badRequest := by
  intro rem
  induction rem with
  | nil => intro st h; cases h
  | cons r rest ih =>
    intro st
    rw [pruneLoop_cons]
    by_cases heq : equalDays r.days (filterDays r.days D) = true
    · rw [if_pos heq]; exact ih st
    · rw [if_neg heq]
      by_cases hf : addFail r.id = true
      · rw [if_pos hf]; intro h; cases h
      · rw [if_neg hf]
        cases st.addResponse pollID { r with days := filterDays r.days D } with
        | error e => intro h; cases h
        | ok st1 => exact ih st1

theorem pruneLoop_subset (pollID userToken : String) (pollD : Poll) (D : List String) :
    ∀ (rem stored : List Response),
      (stored.map Response.id).Nodup →
      (rem.map Response.id).Nodup →
      (∀ x ∈ stored, x.days ⊆ D ∨ x ∈ rem) →
      (∀ y ∈ rem, y ∈ stored) →
      ∃ stored2,
        pruneLoop (fun _ => false) (mkStore pollID pollD stored) pollID userToken D rem
          = (.redirect ("/poll/" ++ pollID ++ "/u/" ++ userToken), mkStore pollID pollD stored2) ∧
        ∀ x ∈ stored2, x.days ⊆ D := by
  intro rem
  induction rem with
  | nil =>
    intro stored _ _ h3 _
    refine ⟨stored, rfl, fun x hx => ?_⟩
    rcases h3 x hx with h | h
    · exact h
    · cases h
  | cons r rest ih =>
    intro stored hnds hndr h3 h4
    rw [pruneLoop_cons]
    simp only [List.map_cons, List.nodup_cons] at hndr
    by_cases heq : equalDays r.days (filterDays r.days D) = true
    · rw [if_pos heq]
      have hrD : r.days ⊆ D := subset_of_equalDays_filter heq
      refine ih stored hnds hndr.2 (fun x hx => ?_) (fun y hy => h4 y (List.mem_cons_of_mem _ hy))
      rcases h3 x hx with h | h
      · exact .inl h
      · rcases List.mem_cons.mp h with h | h
        · exact .inl (h ▸ hrD)
        · exact .inr h
    · rw [if_neg heq, if_neg (by simp), addResponse_mkStore]
      have hstep := ih (upsertByID stored { r with days := filterDays r.days D })
        (upsertByID_ids_nodup _ hnds) hndr.2 ?inv3 ?inv4
      · exact hstep
      case inv3 =>
        intro x hx
        rcases upsertByID_mem_of_nodup hnds hx with h | ⟨hmem, hne⟩
        · exact .inl (h ▸ filterDays_subset r.days D)
        · rcases h3 x hmem with h | h
          · exact .inl h
          · rcases List.mem_cons.mp h with h | h
            · exact absurd (congrArg Response.id h) hne
            · exact .inr h
      case inv4 =>
        intro y hy
        refine mem_upsertByID_of_mem (h4 y (List.mem_cons_of_mem _ hy)) (fun hyid => ?_)
        exact hndr.1 (hyid ▸ List.mem_map_of_mem Response.id hy)

/-! ### Claim C1 -/

/-- Claim C1 (code bug in `handlePoll`): the claim — matching the repo README
(`When creators extend the date list, they are auto-marked available for the
new dates`) and the repo test `TestHandlePollPostUpdateDates`, which runs this
exact scenario and expects the creator response to end at
`["2024-01-01", "2024-01-02"]` — says a date newly added by `update-dates` is
added to the creator response.  The `update-dates` branch of `handlePoll`
only intersects each response with the updated days and never adds a day to
any response (the merge helpers the repo test calls, `diffDays` and
`mergeDays`, do not exist in `main.go`), so the creator response stays at
`["2024-01-01"]`; the second half of the claim (no non-creator response is
auto-opted-in) does hold, as nothing is ever added. -/
theorem c1_updateDates_does_not_auto_mark_creator :
    (updateDatesAction (fun _ => false)
        (mkStore "poll-1"
          { id := "poll-1", title := "Hang", days := ["2024-01-01"],
            creatorToken := "creator", createdAt := 0 }
          [{ id := "resp-1", name := "Creator", days := ["2024-01-01"],
             userToken := "creator", createdAt := 0 }])
        "poll-1" "creator" ["2024-01-01", "2024-01-02"]).1
      = .redirect "/poll/poll-1/u/creator" ∧
    mapGet (updateDatesAction (fun _ => false)
        (mkStore "poll-1"
          { id := "poll-1", title := "Hang", days := ["2024-01-01"],
            creatorToken := "creator", createdAt := 0 }
          [{ id := "resp-1", name := "Creator", days := ["2024-01-01"],
             userToken := "creator", createdAt := 0 }])
        "poll-1" "creator" ["2024-01-01", "2024-01-02"]).2.polls "poll-1"
      = some { id := "poll-1", title := "Hang", days := ["2024-01-01", "2024-01-02"],
               creatorToken := "creator", createdAt := 0 } ∧
    mapGet (updateDatesAction (fun _ => false)
        (mkStore "poll-1"
          { id := "poll-1", title := "Hang", days := ["2024-01-01"],
            creatorToken := "creator", createdAt := 0 }
          [{ id := "resp-1", name := "Creator", days := ["2024-01-01"],
             userToken := "creator", createdAt := 0 }])
        "poll-1" "creator" ["2024-01-01", "2024-01-02"]).2.responses "poll-1"
      = some [{ id := "resp-1", name := "Creator", days := ["2024-01-01"],
                userToken := "creator", createdAt := 0 }] := by
  decide

/-! ### Claim C2 -/

/-- Claim C2, counterexample: for the whitespace token `" "` (nonempty, so it
reaches the submission branch) the claim fails — `findResponseByToken` trims
the caller token to the empty string and reports no match, so a second
submission under the same token appends a second response instead of
replacing the first: two rows for one token. -/
theorem c2_counterexample_whitespace_token :
    (submitResponseAction
        (mkStore "p" { id := "p", title := "T", days := ["2024-01-01"],
                       creatorToken := "c", createdAt := 0 } [])
        "p" " " "A" ["2024-01-01"] "id1" 1).1 = .pageOk ∧
    (submitResponseAction
        (submitResponseAction
          (mkStore "p" { id := "p", title := "T", days := ["2024-01-01"],
                         creatorToken := "c", createdAt := 0 } [])
          "p" " " "A" ["2024-01-01"] "id1" 1).2
        "p" " " "B" ["2024-01-01"] "id2" 2).1 = .pageOk ∧
    mapGet (submitResponseAction
        (submitResponseAction
          (mkStore "p" { id := "p", title := "T", days := ["2024-01-01"],
                         creatorToken := "c", createdAt := 0 } [])
          "p" " " "A" ["2024-01-01"] "id1" 1).2
        "p" " " "B" ["2024-01-01"] "id2" 2).2.responses "p"
      = some [{ id := "id1", name := "A", days := ["2024-01-01"], userToken := " ", createdAt := 1 },
              { id := "id2", name := "B", days := ["2024-01-01"], userToken := " ", createdAt := 2 }] := by
  decide

/-! ### Claim C3 -/

/-- Claim C3, counterexample: no rollback exists.  With two responses to
prune and the storage write for the second one failing, `update-dates` has
already replaced the poll days and pruned the first response when it stops
with a 500: the second response still holds `"2024-01-02"`, which the poll
no longer offers — the poll is left half-updated. -/
theorem c3_counterexample_no_rollback :
    (updateDatesAction (fun rid => rid == "r2")
        (mkStore "p" { id := "p", title := "T", days := ["2024-01-01", "2024-01-02"],
                       creatorToken := "c", createdAt := 0 }
          [{ id := "r1", name := "A", days := ["2024-01-01", "2024-01-02"],
             userToken := "u1", createdAt := 1 },
           { id := "r2", name := "B", days := ["2024-01-01", "2024-01-02"],
             userToken := "u2", createdAt := 2 }])
        "p" "c" ["2024-01-01"]).1 = .serverError ∧
    mapGet (updateDatesAction (fun rid => rid == "r2")
        (mkStore "p" { id := "p", title := "T", days := ["2024-01-01", "2024-01-02"],
                       creatorToken := "c", createdAt := 0 }
          [{ id := "r1", name := "A", days := ["2024-01-01", "2024-01-02"],
             userToken := "u1", createdAt := 1 },
           { id := "r2", name := "B", days := ["2024-01-01", "2024-01-02"],
             userToken := "u2", createdAt := 2 }])
        "p" "c" ["2024-01-01"]).2.polls "p"
      = some { id := "p", title := "T", days := ["2024-01-01"],
               creatorToken := "c", createdAt := 0 } ∧
    mapGet (updateDatesAction (fun rid => rid == "r2")
        (mkStore "p" { id := "p", title := "T", days := ["2024-01-01", "2024-01-02"],
                       creatorToken := "c", createdAt := 0 }
          [{ id := "r1", name := "A", days := ["2024-01-01", "2024-01-02"],
             userToken := "u1", createdAt := 1 },
           { id := "r2", name := "B", days := ["2024-01-01", "2024-01-02"],
             userToken := "u2", createdAt := 2 }])
        "p" "c" ["2024-01-01"]).2.responses "p"
      = some [{ id := "r1", name := "A", days := ["2024-01-01"],
                userToken := "u1", createdAt := 1 },
              { id := "r2", name := "B", days := ["2024-01-01", "2024-01-02"],
                userToken := "u2", createdAt := 2 }] := by
  decide

/-! ### Claim C4 -/

/-- Success test for a storage result. -/
def isOkResult {α : Type} : Except StoreError α → Bool
  | .ok _ => true
  | .error _ => false

/-- Claim C4, counterexample: the two backends do not have identical
observable semantics.  On a store with no poll, `AddResponse` and
`UpdatePollDays` succeed in the DynamoDB backend (unconditional `PutItem`,
upserting `UpdateItem`) but fail with not-found in the memory backend. -/
theorem c4_counterexample_backends_differ :
    isOkResult (DynamoDBStorage.addResponse ⟨[]⟩ "p"
        { id := "r1", name := "A", days := ["2024-01-01"], userToken := "t", createdAt := 0 })
      = true ∧
    MemoryStorage.addResponse ⟨[], []⟩ "p"
        { id := "r1", name := "A", days := ["2024-01-01"], userToken := "t", createdAt := 0 }
      = .error .notFound ∧
    isOkResult (DynamoDBStorage.updatePollDays ⟨[]⟩ "p" ["2024-01-01"]) = true ∧
    MemoryStorage.updatePollDays ⟨[], []⟩ "p" ["2024-01-01"] = .error .notFound := by
  decide

/-- Claim C4, amended: the divergence holds for every state and input — the
DynamoDB backend accepts `AddResponse` and `UpdatePollDays` unconditionally,
while the memory backend fails with not-found whenever the poll is absent. -/
theorem c4_amended_divergence (t : DynamoDBStorage) (m : MemoryStorage) (pollID : String)
    (r : Response) (days : List String) (hm : mapGet m.polls pollID = none) :
    isOkResult (t.addResponse pollID r) = true ∧
    m.addResponse pollID r = .error .notFound ∧
    isOkResult (t.updatePollDays pollID days) = true ∧
    m.updatePollDays pollID days = .error .notFound := by
  refine ⟨rfl, ?_, ?_, ?_⟩
  · unfold MemoryStorage.addResponse
    rw [hm]
    rfl
  · unfold DynamoDBStorage.updatePollDays
    dsimp only
    split <;> rfl
  · unfold MemoryStorage.updatePollDays
    rw [hm]

/-- Claim C4, witness for the amended theorem at a concrete input. -/
theorem c4_amended_divergence_witness :
    isOkResult (DynamoDBStorage.addResponse ⟨[]⟩ "q"
        { id := "r9", name := "N", days := ["2024-02-02"], userToken := "u", createdAt := 3 })
      = true ∧
    MemoryStorage.addResponse ⟨[], []⟩ "q"
        { id := "r9", name := "N", days := ["2024-02-02"], userToken := "u", createdAt := 3 }
      = .error .notFound ∧
    isOkResult (DynamoDBStorage.updatePollDays ⟨[]⟩ "q" ["2024-02-02"]) = true ∧
    MemoryStorage.updatePollDays ⟨[], []⟩ "q" ["2024-02-02"] = .error .notFound :=
  c4_amended_divergence ⟨[]⟩ ⟨[], []⟩ "q"
    { id := "r9", name := "N", days := ["2024-02-02"], userToken := "u", createdAt := 3 }
    ["2024-02-02"] (by decide)

/-! ### Claim C6 -/

/-- Claim C6 (code bug in `randomID`): the claim — and the spec, which flags
the observed behavior as a security gap that must not be preserved — says an
RNG failure must surface as an error and never degrade to a predictable
value.  `randomID` cannot return an error at all (its Go signature is
`func randomID() string`): on `rand.Read` failure it returns
`"fallback-" + UnixNano`, a value fully determined by the clock. -/
theorem c6_randomID_silently_falls_back (nowUnixNano : Nat) :
    randomID none nowUnixNano = "fallback-" ++ toString nowUnixNano := rfl

/-! ### Claim C10 -/

/-- Claim C10: when the stored poll has an empty creator token, `isCreator`
rejects every caller token — including the empty token — so a caller with no
credential is never granted creator authority. -/
theorem c10_empty_creatorToken_never_creator (poll : Poll) (token : String)
    (h : poll.creatorToken = "") : isCreator poll token = false := by
  simp [isCreator, h]

/-- Claim C10, witness: a concrete poll with an empty creator token and the
empty caller token. -/
theorem c10_empty_creatorToken_never_creator_witness :
    isCreator { id := "p", title := "T", days := ["2024-01-01"],
                creatorToken := "", createdAt := 0 } "" = false :=
  c10_empty_creatorToken_never_creator _ "" rfl

/-! ### Unfolding lemmas for the handler actions on a single-poll store -/

theorem submitResponseAction_mkStore (pollID token formName freshID : String)
    (poll : Poll) (rs0 : List Response) (fdays : List String) (now : Nat) :
    submitResponseAction (mkStore pollID poll rs0) pollID token formName fdays freshID now
      = if trimSpace formName = "" ∨ (filterDays (normalizeDays fdays) poll.days).isEmpty = true
        then (.pageWithError, mkStore pollID poll rs0)
        else (.pageOk, mkStore pollID poll (upsertByID rs0
          (match findResponseByToken (sortByCreatedAt rs0) token with
           | some existing =>
             { id := existing.id, name := trimSpace formName
               days := filterDays (normalizeDays fdays) poll.days
               userToken := token, createdAt := existing.createdAt }
           | none =>
             { id := freshID, name := trimSpace formName
               days := filterDays (normalizeDays fdays) poll.days
               userToken := token, createdAt := now }))) := by
  unfold submitResponseAction
  rw [getPoll_mkStore]
  dsimp only
  by_cases hv : trimSpace formName = "" ∨ (filterDays (normalizeDays fdays) poll.days).isEmpty = true
  · rw [if_pos hv, if_pos hv]
  · rw [if_neg hv, if_neg hv]
    rcases hfind : findResponseByToken (sortByCreatedAt rs0) token with _ | ex <;>
    · dsimp only
      rw [addResponse_mkStore]

theorem updateDatesAction_mkStore_notCreator (addFail : String → Bool)
    (pollID token : String) (poll : Poll) (rs0 : List Response) (formDays : List String)
    (hcr : isCreator poll token = false) :
    updateDatesAction addFail (mkStore pollID poll rs0) pollID token formDays
      = (.forbidden, mkStore pollID poll rs0) := by
  unfold updateDatesAction
  rw [getPoll_mkStore]
  dsimp only
  simp [hcr]

theorem updateDatesAction_mkStore_emptyDays (addFail : String → Bool)
    (pollID token : String) (poll : Poll) (rs0 : List Response) (formDays : List String)
    (hcr : isCreator poll token = true) (hD : normalizeDays formDays = []) :
    updateDatesAction addFail (mkStore pollID poll rs0) pollID token formDays
      = (.badRequest, mkStore pollID poll rs0) := by
  unfold updateDatesAction
  rw [getPoll_mkStore]
  dsimp only
  simp [hcr, hD]

theorem updateDatesAction_mkStore_run (addFail : String → Bool)
    (pollID token : String) (poll : Poll) (rs0 : List Response) (formDays : List String)
    (hcr : isCreator poll token = true) (hD : ¬ (normalizeDays formDays).isEmpty = true) :
    updateDatesAction addFail (mkStore pollID poll rs0) pollID token formDays
      = pruneLoop addFail (mkStore pollID { poll with days := normalizeDays formDays } rs0)
          pollID token (normalizeDays formDays) (sortByCreatedAt rs0) := by
  unfold updateDatesAction
  rw [getPoll_mkStore]
  dsimp only
  rw [hcr]
  rw [if_neg (by simp), if_neg hD, updatePollDays_mkStore]

theorem deleteResponseAction_mkStore_notCreator (pollID token rid : String)
    (poll : Poll) (rs0 : List Response) (hcr : isCreator poll token = false) :
    deleteResponseAction (mkStore pollID poll rs0) pollID token rid
      = (.forbidden, mkStore pollID poll rs0) := by
  unfold deleteResponseAction
  rw [getPoll_mkStore]
  dsimp only
  simp [hcr]

/-! ### Claim C3, amended part -/

/-- Claim C3, amended: authorization and validation failures mutate nothing —
a non-creator invoking `update-dates` or `delete-response` gets Forbidden
with the store unchanged, empty normalized days get a 400 with the store
unchanged, and an invalid submission re-renders with the store unchanged.
However (see the counterexample), when a write fails after the poll-days
write succeeded there is no rollback: the prefix of writes persists and a
response can be left holding days outside the poll days. -/
theorem c3_amended_failures_mutate_nothing (addFail : String → Bool)
    (pollID tokF tokC rid formName freshID : String) (poll : Poll) (rs0 : List Response)
    (formDays emptyDays fdays : List String) (now : Nat)
    (hcrF : isCreator poll tokF = false)
    (hcrC : isCreator poll tokC = true)
    (hD : normalizeDays emptyDays = [])
    (hval : trimSpace formName = "" ∨ filterDays (normalizeDays fdays) poll.days = []) :
    updateDatesAction addFail (mkStore pollID poll rs0) pollID tokF formDays
      = (.forbidden, mkStore pollID poll rs0) ∧
    updateDatesAction addFail (mkStore pollID poll rs0) pollID tokC emptyDays
      = (.badRequest, mkStore pollID poll rs0) ∧
    submitResponseAction (mkStore pollID poll rs0) pollID tokF formName fdays freshID now
      = (.pageWithError, mkStore pollID poll rs0) ∧
    deleteResponseAction (mkStore pollID poll rs0) pollID tokF rid
      = (.forbidden, mkStore pollID poll rs0) := by
  refine ⟨updateDatesAction_mkStore_notCreator _ _ _ _ _ _ hcrF,
    updateDatesAction_mkStore_emptyDays _ _ _ _ _ _ hcrC hD, ?_, 
    deleteResponseAction_mkStore_notCreator _ _ _ _ _ hcrF⟩
  rw [submitResponseAction_mkStore]
  rw [if_pos (hval.imp (fun h => h) (fun h => by rw [h]; rfl))]

/-- Claim C3, witness for the amended theorem. -/
theorem c3_amended_failures_mutate_nothing_witness :
    updateDatesAction (fun _ => false)
        (mkStore "p"
          { id := "p", title := "T", days := ["2024-01-01"], creatorToken := "c", createdAt := 0 }
          [])
        "p" "x" ["2024-01-02"]
      = (.forbidden,
         mkStore "p"
          { id := "p", title := "T", days := ["2024-01-01"], creatorToken := "c", createdAt := 0 }
          []) ∧
    updateDatesAction (fun _ => false)
        (mkStore "p"
          { id := "p", title := "T", days := ["2024-01-01"], creatorToken := "c", createdAt := 0 }
          [])
        "p" "c" [" "]
      = (.badRequest,
         mkStore "p"
          { id := "p", title := "T", days := ["2024-01-01"], creatorToken := "c", createdAt := 0 }
          []) ∧
    submitResponseAction
        (mkStore "p"
          { id := "p", title := "T", days := ["2024-01-01"], creatorToken := "c", createdAt := 0 }
          [])
        "p" "x" " " ["2024-01-01"] "id1" 1
      = (.pageWithError,
         mkStore "p"
          { id := "p", title := "T", days := ["2024-01-01"], creatorToken := "c", createdAt := 0 }
          []) ∧
    deleteResponseAction
        (mkStore "p"
          { id := "p", title := "T", days := ["2024-01-01"], creatorToken := "c", createdAt := 0 }
          [])
        "p" "x" "r1"
      = (.forbidden,
         mkStore "p"
          { id := "p", title := "T", days := ["2024-01-01"], creatorToken := "c", createdAt := 0 }
          []) :=
  c3_amended_failures_mutate_nothing (fun _ => false) "p" "x" "c" "r1" " " "id1"
    { id := "p", title := "T", days := ["2024-01-01"], creatorToken := "c", createdAt := 0 }
    [] ["2024-01-02"] [" "] ["2024-01-01"] 1
    (by decide) (by decide) (by decide) (by decide)

/-! ### Claim C5 -/

/-- Claim C5: after every successful mutation, every stored response day set
is a subset of the poll day set.  A successful `update-dates` run leaves the
poll days at the normalized form days and every response pruned to a subset
of them; a successful submission stores only days inside the poll days and
touches no other response, so the subset invariant is preserved. -/
theorem c5_subset_invariant
    (pollID token name loc : String) (poll : Poll) (rs0 : List Response)
    (formDays fdays : List String) (freshID : String) (now : Nat)
    (stU stS : MemoryStorage)
    (hids : (rs0.map Response.id).Nodup)
    (hinv : ∀ r ∈ rs0, r.days ⊆ poll.days)
    (hupd : updateDatesAction (fun _ => false) (mkStore pollID poll rs0) pollID token formDays
            = (.redirect loc, stU))
    (hsub : submitResponseAction (mkStore pollID poll rs0) pollID token name fdays freshID now
            = (.pageOk, stS)) :
    (∃ rsU, mapGet stU.polls pollID = some { poll with days := normalizeDays formDays } ∧
       mapGet stU.responses pollID = some rsU ∧
       ∀ r ∈ rsU, r.days ⊆ normalizeDays formDays) ∧
    (∃ rsS, mapGet stS.polls pollID = some poll ∧
       mapGet stS.responses pollID = some rsS ∧
       ∀ r ∈ rsS, r.days ⊆ poll.days) := by
  constructor
  · rcases Bool.eq_false_or_eq_true (isCreator poll token) with hcr | hcr
    case inr =>
      rw [updateDatesAction_mkStore_notCreator _ _ _ _ _ _ hcr] at hupd
      simp at hupd
    case inl =>
      by_cases hD : (normalizeDays formDays).isEmpty = true
      · rw [updateDatesAction_mkStore_emptyDays _ _ _ _ _ _ hcr (List.isEmpty_iff.mp hD)] at hupd
        simp at hupd
      · rw [updateDatesAction_mkStore_run _ _ _ _ _ _ hcr hD] at hupd
        obtain ⟨stored2, heq2, hsubs⟩ :=
          pruneLoop_subset pollID token { poll with days := normalizeDays formDays }
            (normalizeDays formDays) (sortByCreatedAt rs0) rs0 hids
            (((sortByCreatedAt_perm rs0).map Response.id).nodup_iff.mpr hids)
            (fun x hx => .inr (mem_sortByCreatedAt.mpr hx))
            (fun y hy => mem_sortByCreatedAt.mp hy)
        rw [heq2] at hupd
        injection hupd with h1 h2
        subst h2
        exact ⟨stored2, mapGet_mkStore_polls _ _ _, mapGet_mkStore_responses _ _ _, hsubs⟩
  · rw [submitResponseAction_mkStore] at hsub
    by_cases hv : trimSpace name = "" ∨ (filterDays (normalizeDays fdays) poll.days).isEmpty = true
    · rw [if_pos hv] at hsub
      simp at hsub
    · rw [if_neg hv] at hsub
      injection hsub with h1 h2
      subst h2
      refine ⟨_, mapGet_mkStore_polls _ _ _, mapGet_mkStore_responses _ _ _, ?_⟩
      intro r hr
      rcases upsertByID_mem hr with h | h
      · subst h
        cases findResponseByToken (sortByCreatedAt rs0) token <;>
          exact filterDays_subset _ _
      · exact hinv r h

/-- Claim C5, witness: a concrete update-dates run that shrinks the day set
and prunes the one response, and a concrete submission whose days are
intersected with the poll days. -/
theorem c5_subset_invariant_witness :
    (∃ rsU,
       mapGet (mkStore "p"
          { id := "p", title := "T", days := ["2024-01-01"], creatorToken := "c", createdAt := 0 }
          [{ id := "r1", name := "A", days := ["2024-01-01"], userToken := "u1", createdAt := 1 }]).polls "p"
         = some { id := "p", title := "T", days := normalizeDays ["2024-01-01"],
                  creatorToken := "c", createdAt := 0 } ∧
       mapGet (mkStore "p"
          { id := "p", title := "T", days := ["2024-01-01"], creatorToken := "c", createdAt := 0 }
          [{ id := "r1", name := "A", days := ["2024-01-01"], userToken := "u1", createdAt := 1 }]).responses "p"
         = some rsU ∧
       ∀ r ∈ rsU, r.days ⊆ normalizeDays ["2024-01-01"]) ∧
    (∃ rsS,
       mapGet (mkStore "p"
          { id := "p", title := "T", days := ["2024-01-01", "2024-01-02"],
            creatorToken := "c", createdAt := 0 }
          [{ id := "r1", name := "A", days := ["2024-01-01", "2024-01-02"],
             userToken := "u1", createdAt := 1 },
           { id := "idS", name := "Sam", days := ["2024-01-02"], userToken := "c", createdAt := 5 }]).polls "p"
         = some { id := "p", title := "T", days := ["2024-01-01", "2024-01-02"],
                  creatorToken := "c", createdAt := 0 } ∧
       mapGet (mkStore "p"
          { id := "p", title := "T", days := ["2024-01-01", "2024-01-02"],
            creatorToken := "c", createdAt := 0 }
          [{ id := "r1", name := "A", days := ["2024-01-01", "2024-01-02"],
             userToken := "u1", createdAt := 1 },
           { id := "idS", name := "Sam", days := ["2024-01-02"], userToken := "c", createdAt := 5 }]).responses "p"
         = some rsS ∧
       ∀ r ∈ rsS, r.days ⊆
         ({ id := "p", title := "T", days := ["2024-01-01", "2024-01-02"],
            creatorToken := "c", createdAt := 0 } : Poll).days) :=
  c5_subset_invariant "p" "c" "Sam" "/poll/p/u/c"
    { id := "p", title := "T", days := ["2024-01-01", "2024-01-02"],
      creatorToken := "c", createdAt := 0 }
    [{ id := "r1", name := "A", days := ["2024-01-01", "2024-01-02"],
       userToken := "u1", createdAt := 1 }]
    ["2024-01-01"] ["2024-01-02", "nope"] "idS" 5
    (mkStore "p"
      { id := "p", title := "T", days := ["2024-01-01"], creatorToken := "c", createdAt := 0 }
      [{ id := "r1", name := "A", days := ["2024-01-01"], userToken := "u1", createdAt := 1 }])
    (mkStore "p"
      { id := "p", title := "T", days := ["2024-01-01", "2024-01-02"],
        creatorToken := "c", createdAt := 0 }
      [{ id := "r1", name := "A", days := ["2024-01-01", "2024-01-02"],
         userToken := "u1", createdAt := 1 },
       { id := "idS", name := "Sam", days := ["2024-01-02"], userToken := "c", createdAt := 5 }])
    (by decide) (by decide) (by decide) (by decide)

/-! ### Claim C7 -/

/-- Claim C7: the submitted days are intersected with the poll days before
validation — out-of-poll values are dropped silently and never cause a
rejection by themselves — and the submission fails (with the validation page
and no state change) exactly when the trimmed name is empty or the
intersection is empty; otherwise it succeeds and stores a response whose
days are exactly the intersection. -/
theorem c7_submit_validation (pollID token formName freshID : String) (poll : Poll)
    (rs0 : List Response) (fdays : List String) (now : Nat) :
    ((submitResponseAction (mkStore pollID poll rs0) pollID token formName fdays freshID now).1
        = .pageWithError
      ↔ trimSpace formName = "" ∨ filterDays (normalizeDays fdays) poll.days = []) ∧
    (trimSpace formName = "" ∨ filterDays (normalizeDays fdays) poll.days = [] →
      submitResponseAction (mkStore pollID poll rs0) pollID token formName fdays freshID now
        = (.pageWithError, mkStore pollID poll rs0)) ∧
    (¬(trimSpace formName = "" ∨ filterDays (normalizeDays fdays) poll.days = []) →
      (submitResponseAction (mkStore pollID poll rs0) pollID token formName fdays freshID now).1
        = .pageOk ∧
      ∃ rs1,
        mapGet (submitResponseAction (mkStore pollID poll rs0) pollID token formName
            fdays freshID now).2.responses pollID = some rs1 ∧
        ∃ r, r ∈ rs1 ∧ r.days = filterDays (normalizeDays fdays) poll.days ∧
          r.userToken = token ∧ r.name = trimSpace formName) := by
  rw [submitResponseAction_mkStore]
  by_cases hv : trimSpace formName = "" ∨ (filterDays (normalizeDays fdays) poll.days).isEmpty = true
  · have hv2 : trimSpace formName = "" ∨ filterDays (normalizeDays fdays) poll.days = [] := by
      simpa [List.isEmpty_iff] using hv
    rw [if_pos hv]
    exact ⟨⟨fun _ => hv2, fun _ => rfl⟩, fun _ => rfl, fun hc => absurd hv2 hc⟩
  · have hv2 : ¬(trimSpace formName = "" ∨ filterDays (normalizeDays fdays) poll.days = []) := by
      simpa [List.isEmpty_iff] using hv
    rw [if_neg hv]
    refine ⟨by simp [hv2], fun hc => absurd hc hv2, fun _ => ⟨rfl, ?_⟩⟩
    refine ⟨_, mapGet_mkStore_responses _ _ _, ?_⟩
    refine ⟨_, self_mem_upsertByID _ _, ?_, ?_, ?_⟩ <;>
      (cases findResponseByToken (sortByCreatedAt rs0) token <;> rfl)

/-- Claim C7, witness: a concrete rejected submission (blank name) and a
concrete accepted one whose submitted days include a value outside the poll
day set, which is silently dropped. -/
theorem c7_submit_validation_witness :
    submitResponseAction
        (mkStore "p"
          { id := "p", title := "T", days := ["2024-01-01"], creatorToken := "c", createdAt := 0 }
          [])
        "p" "c" " " ["2024-01-01"] "id1" 1
      = (.pageWithError,
         mkStore "p"
          { id := "p", title := "T", days := ["2024-01-01"], creatorToken := "c", createdAt := 0 }
          []) ∧
    ((submitResponseAction
        (mkStore "p"
          { id := "p", title := "T", days := ["2024-01-01", "2024-01-02"],
            creatorToken := "c", createdAt := 0 }
          [])
        "p" "c" "Sam" ["2024-01-02", "nope"] "idS" 5).1 = .pageOk ∧
      ∃ rs1,
        mapGet (submitResponseAction
          (mkStore "p"
            { id := "p", title := "T", days := ["2024-01-01", "2024-01-02"],
              creatorToken := "c", createdAt := 0 }
            [])
          "p" "c" "Sam" ["2024-01-02", "nope"] "idS" 5).2.responses "p" = some rs1 ∧
        ∃ r, r ∈ rs1 ∧
          r.days = filterDays (normalizeDays ["2024-01-02", "nope"])
            ({ id := "p", title := "T", days := ["2024-01-01", "2024-01-02"],
               creatorToken := "c", createdAt := 0 } : Poll).days ∧
          r.userToken = "c" ∧ r.name = trimSpace "Sam") :=
  ⟨(c7_submit_validation "p" "c" " " "id1"
      { id := "p", title := "T", days := ["2024-01-01"], creatorToken := "c", createdAt := 0 }
      [] ["2024-01-01"] 1).2.1 (by decide),
   (c7_submit_validation "p" "c" "Sam" "idS"
      { id := "p", title := "T", days := ["2024-01-01", "2024-01-02"],
        creatorToken := "c", createdAt := 0 }
      [] ["2024-01-02", "nope"] 5).2.2 (by decide)⟩

/-! ### Claim C8 -/

/-- Claim C8, counterexample: `normalizeDays` performs no date-format
validation.  The entry `"banana"` is not of the date format, yet it survives
normalization, and a creator `update-dates` call with it succeeds and stores
it as the poll day set. -/
theorem c8_counterexample_invalid_date_survives :
    specValidDateFormat "banana" = false ∧
    normalizeDays ["banana"] = ["banana"] ∧
    (updateDatesAction (fun _ => false)
        (mkStore "p"
          { id := "p", title := "T", days := ["2024-01-01"], creatorToken := "c", createdAt := 0 }
          [])
        "p" "c" ["banana"]).1 = .redirect "/poll/p/u/c" ∧
    mapGet (updateDatesAction (fun _ => false)
        (mkStore "p"
          { id := "p", title := "T", days := ["2024-01-01"], creatorToken := "c", createdAt := 0 }
          [])
        "p" "c" ["banana"]).2.polls "p"
      = some { id := "p", title := "T", days := ["banana"], creatorToken := "c", createdAt := 0 } := by
  decide

/-- Claim C8, amended: `normalizeDays` trims every entry, drops entries that
are empty after trimming, removes duplicates and sorts ascending — but it
performs no `YYYY-MM-DD` format validation, so any nonempty trimmed entry
survives; `update-dates` fails with the 400 validation error exactly when
the caller is the creator and the normalized list is empty. -/
theorem c8_amended_normalize_without_format_validation
    (formDays : List String) (pollID token : String) (poll : Poll) (rs0 : List Response) :
    List.Sorted strLe (normalizeDays formDays) ∧
    (normalizeDays formDays).Nodup ∧
    (∀ d, d ∈ normalizeDays formDays ↔ d ≠ "" ∧ ∃ x ∈ formDays, trimSpace x = d) ∧
    ((updateDatesAction (fun _ => false) (mkStore pollID poll rs0) pollID token formDays).1
        = .badRequest
      ↔ isCreator poll token = true ∧ normalizeDays formDays = []) := by
  refine ⟨sortStrings_sorted _, nodup_normalizeDays _, fun d => mem_normalizeDays, ?_⟩
  rcases Bool.eq_false_or_eq_true (isCreator poll token) with hcr | hcr
  case inr =>
    rw [updateDatesAction_mkStore_notCreator _ _ _ _ _ _ hcr]
    simp [hcr]
  case inl =>
    by_cases hD : (normalizeDays formDays).isEmpty = true
    · rw [updateDatesAction_mkStore_emptyDays _ _ _ _ _ _ hcr (List.isEmpty_iff.mp hD)]
      simp [hcr, List.isEmpty_iff.mp hD]
    · rw [updateDatesAction_mkStore_run _ _ _ _ _ _ hcr hD]
      constructor
      · intro hbad
        exact absurd hbad (pruneLoop_ne_badRequest _ _ _ _ _ _)
      · rintro ⟨-, hD2⟩
        exact absurd (by rw [hD2]; rfl) hD

/-! ### Claim C9 -/

/-- Claim C9, counterexample: `summarizeAvailability` counts one name entry
per occurrence of a day in a response day list, so a response with a
duplicated day makes the all-available flag true even though another
response did not select the day, and the name list repeats a name. -/
theorem c9_counterexample_duplicate_days :
    summarizeAvailability ["2024-01-01"]
        [{ id := "r1", name := "A", days := ["2024-01-01", "2024-01-01"],
           userToken := "u1", createdAt := 0 },
         { id := "r2", name := "B", days := [], userToken := "u2", createdAt := 1 }]
      = [{ date := "2024-01-01", names := ["A", "A"], allAvailable := true }] ∧
    ∃ r ∈ ([{ id := "r1", name := "A", days := ["2024-01-01", "2024-01-01"],
              userToken := "u1", createdAt := 0 },
            { id := "r2", name := "B", days := [], userToken := "u2", createdAt := 1 }] :
             List Response),
      "2024-01-01" ∉ r.days := by
  decide

theorem contains_iff_mem {l : List String} {a : String} : l.contains a = true ↔ a ∈ l := by
  simp

theorem filter_beq_of_nodup {l : List String} {a : String} (hnd : l.Nodup) :
    l.filter (fun d => d == a) = if a ∈ l then [a] else [] := by
  induction l with
  | nil => simp
  | cons x xs ih =>
    simp only [List.nodup_cons] at hnd
    by_cases hx : (x == a) = true
    · have hxa : x = a := beq_iff_eq.mp hx
      subst hxa
      rw [List.filter_cons_of_pos (by simp), if_pos (List.mem_cons_self _ _)]
      have hrest : xs.filter (fun d => d == x) = [] := by
        rw [ih hnd.2, if_neg hnd.1]
      rw [hrest]
    · rw [List.filter_cons_of_neg (by simpa using hx), ih hnd.2]
      by_cases ha : a ∈ xs
      · rw [if_pos ha, if_pos (List.mem_cons_of_mem _ ha)]
      · rw [if_neg ha, if_neg (fun hmem => ?_)]
        rcases List.mem_cons.mp hmem with h | h
        · exact hx (beq_iff_eq.mpr h.symm)
        · exact ha h

theorem namesForDay_eq_of_nodup {responses : List Response} {day : String}
    (h : ∀ r ∈ responses, r.days.Nodup) :
    namesForDay responses day
      = (responses.filter (fun r => r.days.contains day)).map Response.name := by
  induction responses with
  | nil => rfl
  | cons r rest ih =>
    have hr := h r (List.mem_cons_self _ _)
    have ihr := ih (fun x hx => h x (List.mem_cons_of_mem _ hx))
    show ((r.days.filter (fun d => d == day)).map (fun _ => r.name)) ++ namesForDay rest day
        = ((r :: rest).filter (fun x => x.days.contains day)).map Response.name
    by_cases hmem : day ∈ r.days
    · rw [filter_beq_of_nodup hr, if_pos hmem,
        List.filter_cons_of_pos (by exact contains_iff_mem.mpr hmem), List.map_cons, ihr]
      rfl
    · rw [filter_beq_of_nodup hr, if_neg hmem,
        List.filter_cons_of_neg (by simpa using fun hc => hmem (contains_iff_mem.mp hc)), ihr]
      rfl

theorem length_filter_eq_iff {α : Type} {p : α → Bool} {l : List α} :
    (l.filter p).length = l.length ↔ ∀ a ∈ l, p a = true := by
  constructor
  · intro h
    exact List.filter_eq_self.mp ((List.filter_sublist l).eq_of_length h)
  · intro h
    rw [List.filter_eq_self.mpr h]

/-- Claim C9, amended: for responses whose day lists are duplicate-free (the
form every response stored through the handlers has, since submitted days
pass through `normalizeDays`), the summary has one entry per day of the poll
day list, each entry lists exactly the names of the responses that selected
that day in ascending order, and its all-available flag is true exactly when
there is at least one response and every response selected the day; with
zero responses the flag is false for every day. -/
theorem c9_amended_summary (days : List String) (responses : List Response)
    (hnd : ∀ r ∈ responses, r.days.Nodup) :
    ((summarizeAvailability days responses).map DaySummary.date = days) ∧
    (∀ s ∈ summarizeAvailability days responses,
       s.names = sortStrings
         ((responses.filter (fun r => r.days.contains s.date)).map Response.name) ∧
       (s.allAvailable = true ↔ responses ≠ [] ∧ ∀ r ∈ responses, s.date ∈ r.days)) := by
  constructor
  · rw [summarizeAvailability, List.map_map]
    dsimp only [Function.comp]
    exact List.map_id days
  · intro s hs
    rw [summarizeAvailability, List.mem_map] at hs
    obtain ⟨day, hday, rfl⟩ := hs
    dsimp only
    refine ⟨by rw [namesForDay_eq_of_nodup hnd], ?_⟩
    have hlen1 : (sortStrings (namesForDay responses day)).length
        = (responses.filter (fun r => r.days.contains day)).length := by
      rw [sortStrings, (List.perm_insertionSort strLe (namesForDay responses day)).length_eq,
        namesForDay_eq_of_nodup hnd, List.length_map]
    rw [Bool.and_eq_true, decide_eq_true_eq, beq_iff_eq, hlen1]
    constructor
    · rintro ⟨hpos, hlen⟩
      refine ⟨List.length_pos.mp hpos, fun r hr => ?_⟩
      exact contains_iff_mem.mp (length_filter_eq_iff.mp hlen r hr)
    · rintro ⟨hne, hall⟩
      exact ⟨List.length_pos.mpr hne,
        length_filter_eq_iff.mpr (fun r hr => contains_iff_mem.mpr (hall r hr))⟩

/-- Claim C9, witness for the amended theorem: the availability example of
the spec, with duplicate-free day lists. -/
theorem c9_amended_summary_witness :
    ((summarizeAvailability ["2024-01-01", "2024-01-02"]
        [{ id := "r1", name := "B", days := ["2024-01-01", "2024-01-02"],
           userToken := "u1", createdAt := 0 },
         { id := "r2", name := "A", days := ["2024-01-01"], userToken := "u2", createdAt := 1 }]).map
        DaySummary.date = ["2024-01-01", "2024-01-02"]) ∧
    (∀ s ∈ summarizeAvailability ["2024-01-01", "2024-01-02"]
        [{ id := "r1", name := "B", days := ["2024-01-01", "2024-01-02"],
           userToken := "u1", createdAt := 0 },
         { id := "r2", name := "A", days := ["2024-01-01"], userToken := "u2", createdAt := 1 }],
       s.names = sortStrings
         (([{ id := "r1", name := "B", days := ["2024-01-01", "2024-01-02"],
              userToken := "u1", createdAt := 0 },
            { id := "r2", name := "A", days := ["2024-01-01"], userToken := "u2", createdAt := 1 }].filter
            (fun r => r.days.contains s.date)).map Response.name) ∧
       (s.allAvailable = true ↔
         ([{ id := "r1", name := "B", days := ["2024-01-01", "2024-01-02"],
             userToken := "u1", createdAt := 0 },
           { id := "r2", name := "A", days := ["2024-01-01"], userToken := "u2", createdAt := 1 }] :
            List Response) ≠ [] ∧
         ∀ r ∈ ([{ id := "r1", name := "B", days := ["2024-01-01", "2024-01-02"],
                   userToken := "u1", createdAt := 0 },
                 { id := "r2", name := "A", days := ["2024-01-01"],
                   userToken := "u2", createdAt := 1 }] : List Response),
           s.date ∈ r.days)) :=
  c9_amended_summary ["2024-01-01", "2024-01-02"]
    [{ id := "r1", name := "B", days := ["2024-01-01", "2024-01-02"],
       userToken := "u1", createdAt := 0 },
     { id := "r2", name := "A", days := ["2024-01-01"], userToken := "u2", createdAt := 1 }]
    (by decide)

/-! ### Claim C2, amended part -/

/-- A second submission under a token that already owns exactly one stored
response (the last one, with no identifier collision among the others)
replaces that response in place, keeping its identifier and creation time and
taking the new name and intersected days. -/
theorem submit_second_replaces (pollID token name2 id2 : String) (poll : Poll)
    (rs0 : List Response) (resp1 : Response) (days2 : List String) (t2 : Nat)
    (htok : trimSpace token ≠ "")
    (hfresh : ∀ r ∈ rs0, trimSpace r.userToken ≠ trimSpace token)
    (hid1 : ∀ r ∈ rs0, r.id ≠ resp1.id)
    (hut : resp1.userToken = token)
    (hval2 : ¬(trimSpace name2 = "" ∨ (filterDays (normalizeDays days2) poll.days).isEmpty = true)) :
    submitResponseAction (mkStore pollID poll (rs0 ++ [resp1])) pollID token name2 days2 id2 t2
      = (.pageOk, mkStore pollID poll (rs0 ++
          [{ id := resp1.id, name := trimSpace name2
             days := filterDays (normalizeDays days2) poll.days
             userToken := token, createdAt := resp1.createdAt }])) := by
  rw [submitResponseAction_mkStore, if_neg hval2]
  have hmem : resp1 ∈ sortByCreatedAt (rs0 ++ [resp1]) :=
    mem_sortByCreatedAt.mpr (List.mem_append_right _ (List.mem_singleton.mpr rfl))
  have huniq : ∀ x ∈ sortByCreatedAt (rs0 ++ [resp1]),
      trimSpace x.userToken = trimSpace token → x = resp1 := by
    intro x hx hxt
    rcases List.mem_append.mp (mem_sortByCreatedAt.mp hx) with h | h
    · exact absurd hxt (hfresh x h)
    · exact List.mem_singleton.mp h
  have hfind2 : findResponseByToken (sortByCreatedAt (rs0 ++ [resp1])) token = some resp1 :=
    findResponseByToken_unique htok (by rw [hut]) huniq hmem
  rw [hfind2]
  dsimp only
  rw [upsertByID_replace_last rs0 resp1
    { id := resp1.id, name := trimSpace name2
      days := filterDays (normalizeDays days2) poll.days
      userToken := token, createdAt := resp1.createdAt } hid1 rfl]

/-- Claim C2, amended: for a token that is nonempty after trimming (token
matching compares trimmed tokens), two valid submissions under the same
token leave exactly one stored response carrying that token — with the
identifier and creation time of the first call and the name and (pruned)
days of the second — and the first submission under a token with no existing
response stores a fresh identifier with the current time. -/
theorem c2_amended_token_scoped_upsert
    (pollID token name1 name2 id1 id2 : String) (poll : Poll) (rs0 : List Response)
    (days1 days2 : List String) (t1 t2 : Nat)
    (htok : trimSpace token ≠ "")
    (hfresh : ∀ r ∈ rs0, trimSpace r.userToken ≠ trimSpace token)
    (hid1 : ∀ r ∈ rs0, r.id ≠ id1)
    (hval1 : ¬(trimSpace name1 = "" ∨ (filterDays (normalizeDays days1) poll.days).isEmpty = true))
    (hval2 : ¬(trimSpace name2 = "" ∨ (filterDays (normalizeDays days2) poll.days).isEmpty = true)) :
    submitResponseAction (mkStore pollID poll rs0) pollID token name1 days1 id1 t1
      = (.pageOk, mkStore pollID poll (rs0 ++
          [{ id := id1, name := trimSpace name1
             days := filterDays (normalizeDays days1) poll.days
             userToken := token, createdAt := t1 }])) ∧
    submitResponseAction
        (mkStore pollID poll (rs0 ++
          [{ id := id1, name := trimSpace name1
             days := filterDays (normalizeDays days1) poll.days
             userToken := token, createdAt := t1 }]))
        pollID token name2 days2 id2 t2
      = (.pageOk, mkStore pollID poll (rs0 ++
          [{ id := id1, name := trimSpace name2
             days := filterDays (normalizeDays days2) poll.days
             userToken := token, createdAt := t1 }])) ∧
    (rs0 ++
        [({ id := id1, name := trimSpace name2
            days := filterDays (normalizeDays days2) poll.days
            userToken := token, createdAt := t1 } : Response)]).filter
        (fun r => trimSpace r.userToken == trimSpace token)
      = [({ id := id1, name := trimSpace name2
            days := filterDays (normalizeDays days2) poll.days
            userToken := token, createdAt := t1 } : Response)] := by
  have hfind1 : findResponseByToken (sortByCreatedAt rs0) token = none :=
    findResponseByToken_none (fun r hr => hfresh r (mem_sortByCreatedAt.mp hr))
  refine ⟨?_, ?_, ?_⟩
  · rw [submitResponseAction_mkStore, if_neg hval1, hfind1]
    dsimp only
    rw [upsertByID_fresh hid1]
  · exact submit_second_replaces pollID token name2 id2 poll rs0
      { id := id1, name := trimSpace name1
        days := filterDays (normalizeDays days1) poll.days
        userToken := token, createdAt := t1 }
      days2 t2 htok hfresh hid1 rfl hval2
  · rw [List.filter_append]
    have h0 : rs0.filter (fun r => trimSpace r.userToken == trimSpace token) = [] := by
      rw [List.filter_eq_nil_iff]
      intro r hr
      simpa [beq_iff_eq] using hfresh r hr
    rw [h0, List.nil_append, List.filter_cons_of_pos (by simp), List.filter_nil]

/-- Claim C2, witness for the amended theorem: a fresh token, two valid
submissions, one resulting row keeping the first identifier and time. -/
theorem c2_amended_token_scoped_upsert_witness :
    submitResponseAction
        (mkStore "p"
          { id := "p", title := "T", days := ["2024-01-01"], creatorToken := "c", createdAt := 0 }
          [])
        "p" "tok" "A" ["2024-01-01"] "id1" 1
      = (.pageOk, mkStore "p"
          { id := "p", title := "T", days := ["2024-01-01"], creatorToken := "c", createdAt := 0 }
          ([] ++
            [{ id := "id1", name := trimSpace "A"
               days := filterDays (normalizeDays ["2024-01-01"])
                 ({ id := "p", title := "T", days := ["2024-01-01"],
                    creatorToken := "c", createdAt := 0 } : Poll).days
               userToken := "tok", createdAt := 1 }])) ∧
    submitResponseAction
        (mkStore "p"
          { id := "p", title := "T", days := ["2024-01-01"], creatorToken := "c", createdAt := 0 }
          ([] ++
            [{ id := "id1", name := trimSpace "A"
               days := filterDays (normalizeDays ["2024-01-01"])
                 ({ id := "p", title := "T", days := ["2024-01-01"],
                    creatorToken := "c", createdAt := 0 } : Poll).days
               userToken := "tok", createdAt := 1 }]))
        "p" "tok" "B" ["2024-01-01"] "id2" 2
      = (.pageOk, mkStore "p"
          { id := "p", title := "T", days := ["2024-01-01"], creatorToken := "c", createdAt := 0 }
          ([] ++
            [{ id := "id1", name := trimSpace "B"
               days := filterDays (normalizeDays ["2024-01-01"])
                 ({ id := "p", title := "T", days := ["2024-01-01"],
                    creatorToken := "c", createdAt := 0 } : Poll).days
               userToken := "tok", createdAt := 1 }])) ∧
    (([] : List Response) ++
        [({ id := "id1", name := trimSpace "B"
            days := filterDays (normalizeDays ["2024-01-01"])
              ({ id := "p", title := "T", days := ["2024-01-01"],
                 creatorToken := "c", createdAt := 0 } : Poll).days
            userToken := "tok", createdAt := 1 } : Response)]).filter
        (fun r => trimSpace r.userToken == trimSpace "tok")
      = [({ id := "id1", name := trimSpace "B"
            days := filterDays (normalizeDays ["2024-01-01"])
              ({ id := "p", title := "T", days := ["2024-01-01"],
                 creatorToken := "c", createdAt := 0 } : Poll).days
            userToken := "tok", createdAt := 1 } : Response)] :=
  c2_amended_token_scoped_upsert "p" "tok" "A" "B" "id1" "id2"
    { id := "p", title := "T", days := ["2024-01-01"], creatorToken := "c", createdAt := 0 }
    [] ["2024-01-01"] ["2024-01-01"] 1 2
    (by decide) (by simp) (by simp) (by decide) (by decide)

/-- Claim C8, witness for the amended theorem at the non-date entry
`"banana"`. -/
theorem c8_amended_normalize_without_format_validation_witness :
    List.Sorted strLe (normalizeDays ["banana"]) ∧
    (normalizeDays ["banana"]).Nodup ∧
    (∀ d, d ∈ normalizeDays ["banana"] ↔ d ≠ "" ∧ ∃ x ∈ ["banana"], trimSpace x = d) ∧
    ((updateDatesAction (fun _ => false)
        (mkStore "p"
          { id := "p", title := "T", days := ["2024-01-01"], creatorToken := "c", createdAt := 0 }
          [])
        "p" "c" ["banana"]).1 = .badRequest
      ↔ isCreator { id := "p", title := "T", days := ["2024-01-01"],
                    creatorToken := "c", createdAt := 0 } "c" = true ∧
        normalizeDays ["banana"] = []) :=
  c8_amended_normalize_without_format_validation ["banana"] "p" "c"
    { id := "p", title := "T", days := ["2024-01-01"], creatorToken := "c", createdAt := 0 } []
